import Mathlib

/-
Verification of the apisix-seed Watcher core
(src/internal/core/components/watcher.go).

The Watcher orchestrates reconciliation and continuous synchronization of
service-bearing store entities against pluggable discovery backends.  The
file below is a shallow embedding of that Go file: the pure control flow of
`handleValue`, `handleQuery`, `Init` and the message-encoding helpers is
translated function by function, while the external collaborators (the
entity/Queer capability, the store's snapshot cache, the message codec) are
modelled from their documented interfaces, since their code lives outside
the watcher file.  Go runtime aborts (out-of-range slice index, failed
interface type assertion, the explicit abort on a listing error) are made
explicit as the `GoFault` error type.
-/

set_option autoImplicit false

namespace Seed

/-- Modelled from the spec: the add event kind (`utils.EventAdd`; the utils
package is not under src). -/
def eventAdd : String := "add"

/-- Modelled from the spec: the delete event kind (`utils.EventDelete`; the
utils package is not under src). -/
def eventDelete : String := "delete"

/-- Modelled from the spec: the update event kind (`utils.EventUpdate`; the
utils package is not under src). -/
def eventUpdate : String := "update"

/-- Modelled from the spec: an EntityID is a composite key of store type and
store-local key (`discoverer.EncodeEntityID`, not under src). -/
def EncodeEntityID (typ id : String) : String := typ ++ "/" ++ id

/-- Modelled from the spec: the data a `entity.Queer` value exposes —
`Extract()` returns (id, service name, argument payload) and `GetType()`
returns the discovery type selecting the backend. -/
structure QueerData (Args : Type) where
  id : String
  service : String
  args : Args
  dtype : String
deriving DecidableEq

/-- Modelled from the spec: a Query message (`comm.Query`, not under src):
header fields (event kind, entity ID, service name) plus the argument
payload. -/
structure Query (Args : Type) where
  event : String
  entityID : String
  service : String
  args : Args
deriving DecidableEq

/-- Modelled from the spec: an Update message (`comm.Update`, not under src):
header fields (event kind, service name) plus old and new argument
payloads. -/
structure Update (Args : Type) where
  event : String
  service : String
  oldArgs : Args
  newArgs : Args
deriving DecidableEq

/-- Modelled from the spec: `comm.NewQuery` (not under src) builds a Query
from three header values and an argument payload and fails exactly on a
malformed argument payload (`argsOk args = false`). -/
def NewQuery {Args : Type} (argsOk : Args → Bool) (headerVals : List String)
    (args : Args) : Option (Query Args) :=
  match headerVals with
  | [e, eid, s] => if argsOk args then some ⟨e, eid, s, args⟩ else none
  | _ => none

/-- Modelled from the spec: `comm.NewUpdate` (not under src) builds an Update
from two header values and the old and new argument payloads and fails
exactly on a malformed argument payload. -/
def NewUpdate {Args : Type} (argsOk : Args → Bool) (headerVals : List String)
    (oldArgs newArgs : Args) : Option (Update Args) :=
  match headerVals with
  | [e, s] =>
    if argsOk oldArgs && argsOk newArgs then some ⟨e, s, oldArgs, newArgs⟩ else none
  | _ => none

/-- Modelled from the spec: the external collaborators the watcher calls.
`serviceFilter` is `entity.ServiceFilter` (the service-bearing predicate),
`serviceUpdate` and `serviceReplace` the two diff predicates,
`asQueer` the `objPtr.(entity.Queer)` interface assertion (`none` means the
assertion would abort), `stringToObjPtr` the store's deserializer, and
`argsOk` the codec's argument-payload validity test. -/
structure Collab (Obj Args : Type) where
  serviceFilter : Obj → Bool
  serviceUpdate : Obj → Obj → Bool
  serviceReplace : Obj → Obj → Bool
  asQueer : Obj → Option (QueerData Args)
  stringToObjPtr : String → String → Option Obj
  argsOk : Args → Bool

/-- The snapshot cache: a keyed association list from store-local key to the
last observed object (the store's in-memory previous-value cache). -/
abbrev Cache (Obj : Type) := List (String × Obj)

/-- Look up the current object cached at a key. -/
def cacheGet {Obj : Type} : Cache Obj → String → Option Obj
  | [], _ => none
  | p :: rest, k => if p.1 = k then some p.2 else cacheGet rest k

/-- Remove every entry for a key. -/
def cacheRemove {Obj : Type} : Cache Obj → String → Cache Obj
  | [], _ => []
  | p :: rest, k => if p.1 = k then cacheRemove rest k else p :: cacheRemove rest k

/-- Modelled from the spec: `GenericStore.Store` (not under src) — atomic
upsert into the snapshot cache, returning the previous object (or `none`)
together with the updated cache. -/
def cacheStore {Obj : Type} (cache : Cache Obj) (k : String) (o : Obj) :
    Option Obj × Cache Obj :=
  (cacheGet cache k, (k, o) :: cacheRemove cache k)

/-- Modelled from the spec: `GenericStore.Delete` (not under src) — atomic
removal from the snapshot cache, returning the removed object (or `none`)
together with the updated cache. -/
def cacheDelete {Obj : Type} (cache : Cache Obj) (k : String) :
    Option Obj × Cache Obj :=
  match cacheGet cache k with
  | none => (none, cache)
  | some o => (some o, cacheRemove cache k)

/-- A dispatched operation: `GetDiscoverer(dtype).Query(q)` or
`GetDiscoverer(dtype).Update(u)`; `dtype` names the discovery backend the
operation is routed to. -/
inductive Dispatch (Args : Type) where
  | query (dtype : String) (q : Query Args)
  | update (dtype : String) (u : Update Args)
deriving DecidableEq

/-- The ways a Go function of the watcher can abort at runtime: an
out-of-range slice index, a failed interface type assertion, and the
explicit abort in `Init` when a store listing fails. -/
inductive GoFault where
  | indexOutOfRange
  | typeAssertionFailed
  | storerListFailed
deriving DecidableEq

/-- `encodeQuery` (watcher.go lines 178-189): extract (id, service, args)
from the queer, build the entity ID and the header values
[event, entityID, service], and ask the codec for a Query. -/
def encodeQuery {Args : Type} (argsOk : Args → Bool) (event typ : String)
    (queer : QueerData Args) : Option (Query Args) :=
  NewQuery argsOk [event, EncodeEntityID typ queer.id, queer.service] queer.args

/-- `encodeUpdate` (watcher.go lines 191-202): take the service name and old
arguments from the old queer, the new arguments from the new queer, and ask
the codec for an Update with header [EventUpdate, service]. -/
def encodeUpdate {Args : Type} (argsOk : Args → Bool)
    (oldQueer newQueer : QueerData Args) : Option (Update Args) :=
  NewUpdate argsOk [eventUpdate, oldQueer.service] oldQueer.args newQueer.args

/-- `Watcher.handleQuery` (watcher.go lines 62-77): assert the listed object
is a Queer, encode an add-Query for it (on an encode error log and return
with no dispatch), and otherwise dispatch the query to the backend selected
by the object's own discovery type. -/
def handleQuery {Obj Args : Type} (c : Collab Obj Args) (typ : String)
    (objPtr : Obj) : Except GoFault (List (Dispatch Args)) :=
  match c.asQueer objPtr with
  | none => .error .typeAssertionFailed
  | some queer =>
    match encodeQuery c.argsOk eventAdd typ queer with
    | none => .ok []
    | some query => .ok [.query queer.dtype query]

/-- The add-kind branch of `Watcher.handleValue` (watcher.go lines 112-160):
decode the raw value (on failure log and return), drop non-service-bearing
objects silently, assert the Queer capability, atomically store the new
object receiving the previous one, and classify: no previous object → one
add-Query for the new object; `ServiceUpdate` → one Update message;
otherwise `ServiceReplace` → a delete-Query from the old object then an
add-Query from the new object, each routed by that object's own discovery
type; otherwise nothing.  Any encode failure logs and returns, dispatching
nothing further for this record. -/
def handleAdd {Obj Args : Type} (c : Collab Obj Args) (styp : String)
    (cache : Cache Obj) (key value : String) :
    Except GoFault (Cache Obj × List (Dispatch Args)) :=
  match c.stringToObjPtr value key with
  | none => .ok (cache, [])
  | some objPtr =>
    if c.serviceFilter objPtr = true then
      match c.asQueer objPtr with
      | none => .error .typeAssertionFailed
      | some queer =>
        match (cacheStore cache key objPtr).1 with
        | none =>
          match encodeQuery c.argsOk eventAdd styp queer with
          | none => .ok ((cacheStore cache key objPtr).2, [])
          | some query =>
            .ok ((cacheStore cache key objPtr).2, [.query queer.dtype query])
        | some oldObjPtr =>
          if c.serviceUpdate oldObjPtr objPtr = true then
            match c.asQueer oldObjPtr with
            | none => .error .typeAssertionFailed
            | some oldQueer =>
              match encodeUpdate c.argsOk oldQueer queer with
              | none => .ok ((cacheStore cache key objPtr).2, [])
              | some upd =>
                .ok ((cacheStore cache key objPtr).2, [.update queer.dtype upd])
          else if c.serviceReplace oldObjPtr objPtr = true then
            match c.asQueer oldObjPtr with
            | none => .error .typeAssertionFailed
            | some oldQueer =>
              match encodeQuery c.argsOk eventDelete styp oldQueer with
              | none => .ok ((cacheStore cache key objPtr).2, [])
              | some del =>
                match encodeQuery c.argsOk eventAdd styp queer with
                | none => .ok ((cacheStore cache key objPtr).2, [])
                | some add =>
                  .ok ((cacheStore cache key objPtr).2,
                    [.query oldQueer.dtype del, .query queer.dtype add])
          else
            .ok ((cacheStore cache key objPtr).2, [])
    else
      .ok (cache, [])

/-- The delete-kind branch of `Watcher.handleValue` (watcher.go lines
161-174): atomically remove the cached object; if nothing was cached do
nothing, otherwise assert the Queer capability and dispatch a delete-Query
for the removed object (an encode failure logs and dispatches nothing). -/
def handleDelete {Obj Args : Type} (c : Collab Obj Args) (styp : String)
    (cache : Cache Obj) (key : String) :
    Except GoFault (Cache Obj × List (Dispatch Args)) :=
  match (cacheDelete cache key).1 with
  | none => .ok ((cacheDelete cache key).2, [])
  | some objPtr =>
    match c.asQueer objPtr with
    | none => .error .typeAssertionFailed
    | some queer =>
      match encodeQuery c.argsOk eventDelete styp queer with
      | none => .ok ((cacheDelete cache key).2, [])
      | some query => .ok ((cacheDelete cache key).2, [.query queer.dtype query])

/-- `Watcher.handleValue` (watcher.go lines 104-176): the log statement on
line 110 indexes `val[0]`, `val[1]` and `val[2]` unconditionally (any
shorter slice aborts with an index error), then the switch on the event
kind runs the add branch, the delete branch, or nothing. -/
def handleValue {Obj Args : Type} (c : Collab Obj Args) (styp : String)
    (cache : Cache Obj) (val : List String) :
    Except GoFault (Cache Obj × List (Dispatch Args)) :=
  match val with
  | ev :: key :: value :: _ =>
    if ev = eventAdd then
      handleAdd c styp cache key value
    else if ev = eventDelete then
      handleDelete c styp cache key
    else
      .ok (cache, [])
  | _ => .error .indexOutOfRange

/-- One configured store as `Init` sees it: its type tag, the result of
`List(entity.ServiceFilter)` and its snapshot cache. -/
structure StoreSt (Obj : Type) where
  typ : String
  listResult : Except String (List Obj)
  cache : Cache Obj

/-- Reconciliation of one store's listed objects (watcher.go lines 35-41):
one `handleQuery` task per listed object; the dispatches of the whole batch
are collected in order. -/
def initStore {Obj Args : Type} (c : Collab Obj Args) (typ : String) :
    List Obj → Except GoFault (List (Dispatch Args))
  | [] => .ok []
  | o :: os =>
    match handleQuery c typ o with
    | .error e => .error e
    | .ok d =>
      match initStore c typ os with
      | .error e => .error e
      | .ok ds => .ok (d ++ ds)

/-- The single dispatch a listed entity contributes during reconciliation,
if any: `none` when the Queer assertion is unavailable or its encode
fails. -/
def reconcileOne {Obj Args : Type} (c : Collab Obj Args) (typ : String) (o : Obj) :
    Option (Dispatch Args) :=
  (c.asQueer o).bind fun q =>
    (encodeQuery c.argsOk eventAdd typ q).map fun qu => .query q.dtype qu

/-- `Watcher.Init` (watcher.go lines 24-43): for each configured store in
order, take the listing result — a listing error aborts the whole startup
(`storerListFailed`) — and reconcile the listed objects.  The stores (and in
particular their snapshot caches) are returned unchanged: `Init` never calls
`Store` or `Delete`. -/
def InitW {Obj Args : Type} (c : Collab Obj Args) :
    List (StoreSt Obj) → Except GoFault (List (StoreSt Obj) × List (Dispatch Args))
  | [] => .ok ([], [])
  | s :: rest =>
    match s.listResult with
    | .error _ => .error .storerListFailed
    | .ok objs =>
      match initStore c s.typ objs with
      | .error e => .error e
      | .ok ds =>
        match InitW c rest with
        | .error e => .error e
        | .ok (rest', ds') => .ok (s :: rest', ds ++ ds')

/-- Sequential processing of a list of change records by `handleValue`,
threading the snapshot cache and collecting dispatches in order (batches of
one store are processed strictly sequentially, see spec section 5). -/
def runRecords {Obj Args : Type} (c : Collab Obj Args) (styp : String) :
    Cache Obj → List (List String) → Except GoFault (Cache Obj × List (Dispatch Args))
  | cache, [] => .ok (cache, [])
  | cache, r :: rs =>
    match handleValue c styp cache r with
    | .error e => .error e
    | .ok (cache', ds) =>
      match runRecords c styp cache' rs with
      | .error e => .error e
      | .ok (cacheF, ds') => .ok (cacheF, ds ++ ds')

/-- Sequential processing of add-kind records for one key, recording before
each step the previous object the atomic store returns for that key
(`(cacheStore cache k o).1 = cacheGet cache k` definitionally). -/
def runAdds {Obj Args : Type} (c : Collab Obj Args) (styp k : String) :
    Cache Obj → List String → Except GoFault (Cache Obj × List (Option Obj))
  | cache, [] => .ok (cache, [])
  | cache, v :: vs =>
    match handleValue c styp cache [eventAdd, k, v] with
    | .error e => .error e
    | .ok (cache', _) =>
      match runAdds c styp k cache' vs with
      | .error e => .error e
      | .ok (cacheF, prevs) => .ok (cacheF, cacheGet cache k :: prevs)

/-- Capacity of the permit pool: `runtime.GOMAXPROCS(0) + 10`
(watcher.go line 26). -/
def semCapacity (gomaxprocs : Nat) : Nat := gomaxprocs + 10

/-- The two observable transitions of the permit-pool channel: a send before
spawning a dispatch task (watcher.go lines 38 and 96) and the deferred
receive when the task finishes (lines 64 and 106). -/
inductive SemEvent where
  | acquire
  | release
deriving DecidableEq

/-- One step of the buffered channel used as a counting semaphore: a send
blocks (is not enabled) unless a slot is free, a receive blocks unless a
permit is held.  The state is the number of permits currently held. -/
def semStep (cap n : Nat) : SemEvent → Option Nat
  | .acquire => if n < cap then some (n + 1) else none
  | .release => if 0 < n then some (n - 1) else none

/-- Run a sequence of semaphore events from a starting permit count;
`none` means some event was not enabled. -/
def semRun (cap : Nat) : Nat → List SemEvent → Option Nat
  | n, [] => some n
  | n, e :: es =>
    match semStep cap n e with
    | none => none
    | some n' => semRun cap n' es

/-- The numeric value of a decimal digit character, if it is one. -/
def charDigit (ch : Char) : Option Nat :=
  if 48 ≤ ch.toNat ∧ ch.toNat ≤ 57 then some (ch.toNat - 48) else none

/-- Fold a list of decimal digit characters into a number. -/
def decodeDigits : List Char → Nat → Option Nat
  | [], acc => some acc
  | ch :: cs, acc =>
    match charDigit ch with
    | none => none
    | some d => decodeDigits cs (acc * 10 + d)

/-- Parse a non-empty decimal string into a number. -/
def decodeNat (s : String) : Option Nat :=
  match s.data with
  | [] => none
  | cs => decodeDigits cs 0

/-- Extraction data of the example objects: object n has id `Nat.repr n`,
service name `Nat.repr (n / 10)`, argument payload n and discovery type
`"d" ++ Nat.repr (n % 10)`. -/
def queerEx (o : Nat) : QueerData Nat :=
  ⟨Nat.repr o, Nat.repr (o / 10), o, "d" ++ Nat.repr (o % 10)⟩

/-- A small concrete collaborator instance over natural-number objects, used
to evaluate the theorems on concrete inputs: object 0 is not
service-bearing, the service target of object n is n / 10, and argument
payloads of 100 and above are malformed (their encoding fails). -/
def cEx : Collab Nat Nat where
  serviceFilter := fun o => decide (o ≠ 0)
  serviceUpdate := fun a b => decide (a / 10 = b / 10 ∧ a ≠ b)
  serviceReplace := fun a b => decide (¬ a / 10 = b / 10)
  asQueer := fun o => if o = 0 then none else some (queerEx o)
  stringToObjPtr := fun v _ => decodeNat v
  argsOk := fun a => decide (a < 100)

theorem cEx_wf : ∀ o, cEx.serviceFilter o = true → (cEx.asQueer o).isSome = true := by
  intro o h
  simp [cEx] at h
  simp [cEx, h]

theorem cEx_excl : ∀ a b : Nat,
    cEx.serviceUpdate a b = true → cEx.serviceReplace a b = false := by
  intro a b h
  simp [cEx] at h ⊢
  exact h.1

@[simp] theorem cacheStore_fst {Obj : Type} (cache : Cache Obj) (k : String) (o : Obj) :
    (cacheStore cache k o).1 = cacheGet cache k := rfl

theorem cacheStore_snd {Obj : Type} (cache : Cache Obj) (k : String) (o : Obj) :
    (cacheStore cache k o).2 = (k, o) :: cacheRemove cache k := rfl

@[simp] theorem cacheGet_store_self {Obj : Type} (cache : Cache Obj) (k : String) (o : Obj) :
    cacheGet (cacheStore cache k o).2 k = some o := by
  simp [cacheStore, cacheGet]

theorem mem_cacheRemove {Obj : Type} {cache : Cache Obj} {k : String}
    {p : String × Obj} (h : p ∈ cacheRemove cache k) : p ∈ cache := by
  induction cache with
  | nil => simp [cacheRemove] at h
  | cons q rest ih =>
    rw [cacheRemove] at h
    split at h
    · exact List.mem_cons_of_mem _ (ih h)
    · rcases List.mem_cons.mp h with h' | h'
      · exact h' ▸ List.mem_cons_self _ _
      · exact List.mem_cons_of_mem _ (ih h')

theorem cacheGet_mem {Obj : Type} {cache : Cache Obj} {k : String} {o : Obj}
    (h : cacheGet cache k = some o) : (k, o) ∈ cache := by
  induction cache with
  | nil => simp [cacheGet] at h
  | cons q rest ih =>
    rw [cacheGet] at h
    split at h
    · rename_i heq
      obtain rfl : q.2 = o := by simpa using h
      exact heq ▸ List.mem_cons_self _ _
    · exact List.mem_cons_of_mem _ (ih h)

theorem handleValue_cons_add {Obj Args : Type} (c : Collab Obj Args)
    (styp : String) (cache : Cache Obj) {ev : String} (k v : String)
    (rest : List String) (hev : ev = eventAdd) :
    handleValue c styp cache (ev :: k :: v :: rest) = handleAdd c styp cache k v := by
  subst hev
  show (if eventAdd = eventAdd then handleAdd c styp cache k v
    else if eventAdd = eventDelete then handleDelete c styp cache k
    else .ok (cache, [])) = _
  rw [if_pos rfl]

theorem handleValue_cons_delete {Obj Args : Type} (c : Collab Obj Args)
    (styp : String) (cache : Cache Obj) {ev : String} (k v : String)
    (rest : List String) (hev : ev = eventDelete) :
    handleValue c styp cache (ev :: k :: v :: rest) = handleDelete c styp cache k := by
  subst hev
  show (if eventDelete = eventAdd then handleAdd c styp cache k v
    else if eventDelete = eventDelete then handleDelete c styp cache k
    else .ok (cache, [])) = _
  rw [if_neg (by decide), if_pos rfl]

theorem handleValue_cons_other {Obj Args : Type} (c : Collab Obj Args)
    (styp : String) (cache : Cache Obj) {ev : String} (k v : String)
    (rest : List String) (h1 : ev ≠ eventAdd) (h2 : ev ≠ eventDelete) :
    handleValue c styp cache (ev :: k :: v :: rest) = .ok (cache, []) := by
  show (if ev = eventAdd then handleAdd c styp cache k v
    else if ev = eventDelete then handleDelete c styp cache k
    else .ok (cache, [])) = _
  rw [if_neg h1, if_neg h2]

theorem encodeQuery_eq_some {Args : Type} {argsOk : Args → Bool}
    {event typ : String} {q : QueerData Args} {qu : Query Args}
    (h : encodeQuery argsOk event typ q = some qu) :
    qu = ⟨event, EncodeEntityID typ q.id, q.service, q.args⟩ ∧ argsOk q.args = true := by
  rw [encodeQuery, NewQuery] at h
  split at h
  · exact ⟨(Option.some.injEq _ _ ▸ h).symm, by assumption⟩
  · exact absurd h (by simp)

theorem handleAdd_decodeFail {Obj Args : Type} {c : Collab Obj Args}
    (styp : String) (cache : Cache Obj) {key value : String}
    (hdec : c.stringToObjPtr value key = none) :
    handleAdd c styp cache key value = .ok (cache, []) := by
  simp [handleAdd, hdec]

theorem handleAdd_filtered {Obj Args : Type} {c : Collab Obj Args}
    (styp : String) (cache : Cache Obj) {key value : String} {o : Obj}
    (hdec : c.stringToObjPtr value key = some o)
    (hfil : c.serviceFilter o = false) :
    handleAdd c styp cache key value = .ok (cache, []) := by
  simp [handleAdd, hdec, hfil]

theorem handleAdd_new_encOk {Obj Args : Type} {c : Collab Obj Args}
    (styp : String) (cache : Cache Obj) {key value : String} {o : Obj}
    {q : QueerData Args} {qu : Query Args}
    (hdec : c.stringToObjPtr value key = some o)
    (hfil : c.serviceFilter o = true) (hq : c.asQueer o = some q)
    (hold : cacheGet cache key = none)
    (henc : encodeQuery c.argsOk eventAdd styp q = some qu) :
    handleAdd c styp cache key value
      = .ok ((key, o) :: cacheRemove cache key, [.query q.dtype qu]) := by
  simp [handleAdd, hdec, hfil, hq, hold, henc, cacheStore]

theorem handleAdd_new_encFail {Obj Args : Type} {c : Collab Obj Args}
    (styp : String) (cache : Cache Obj) {key value : String} {o : Obj}
    {q : QueerData Args}
    (hdec : c.stringToObjPtr value key = some o)
    (hfil : c.serviceFilter o = true) (hq : c.asQueer o = some q)
    (hold : cacheGet cache key = none)
    (henc : encodeQuery c.argsOk eventAdd styp q = none) :
    handleAdd c styp cache key value = .ok ((key, o) :: cacheRemove cache key, []) := by
  simp [handleAdd, hdec, hfil, hq, hold, henc, cacheStore]

theorem handleAdd_update_encOk {Obj Args : Type} {c : Collab Obj Args}
    (styp : String) (cache : Cache Obj) {key value : String} {o old : Obj}
    {q oldq : QueerData Args} {u : Update Args}
    (hdec : c.stringToObjPtr value key = some o)
    (hfil : c.serviceFilter o = true) (hq : c.asQueer o = some q)
    (hold : cacheGet cache key = some old)
    (hupd : c.serviceUpdate old o = true) (holdq : c.asQueer old = some oldq)
    (henc : encodeUpdate c.argsOk oldq q = some u) :
    handleAdd c styp cache key value
      = .ok ((key, o) :: cacheRemove cache key, [.update q.dtype u]) := by
  simp [handleAdd, hdec, hfil, hq, hold, hupd, holdq, henc, cacheStore]

theorem handleAdd_update_encFail {Obj Args : Type} {c : Collab Obj Args}
    (styp : String) (cache : Cache Obj) {key value : String} {o old : Obj}
    {q oldq : QueerData Args}
    (hdec : c.stringToObjPtr value key = some o)
    (hfil : c.serviceFilter o = true) (hq : c.asQueer o = some q)
    (hold : cacheGet cache key = some old)
    (hupd : c.serviceUpdate old o = true) (holdq : c.asQueer old = some oldq)
    (henc : encodeUpdate c.argsOk oldq q = none) :
    handleAdd c styp cache key value = .ok ((key, o) :: cacheRemove cache key, []) := by
  simp [handleAdd, hdec, hfil, hq, hold, hupd, holdq, henc, cacheStore]

theorem handleAdd_replace_encOk {Obj Args : Type} {c : Collab Obj Args}
    (styp : String) (cache : Cache Obj) {key value : String} {o old : Obj}
    {q oldq : QueerData Args} {del add : Query Args}
    (hdec : c.stringToObjPtr value key = some o)
    (hfil : c.serviceFilter o = true) (hq : c.asQueer o = some q)
    (hold : cacheGet cache key = some old)
    (hupd : c.serviceUpdate old o = false) (hrep : c.serviceReplace old o = true)
    (holdq : c.asQueer old = some oldq)
    (hdel : encodeQuery c.argsOk eventDelete styp oldq = some del)
    (hadd : encodeQuery c.argsOk eventAdd styp q = some add) :
    handleAdd c styp cache key value
      = .ok ((key, o) :: cacheRemove cache key,
          [.query oldq.dtype del, .query q.dtype add]) := by
  simp [handleAdd, hdec, hfil, hq, hold, hupd, hrep, holdq, hdel, hadd, cacheStore]

theorem handleAdd_replace_delFail {Obj Args : Type} {c : Collab Obj Args}
    (styp : String) (cache : Cache Obj) {key value : String} {o old : Obj}
    {q oldq : QueerData Args}
    (hdec : c.stringToObjPtr value key = some o)
    (hfil : c.serviceFilter o = true) (hq : c.asQueer o = some q)
    (hold : cacheGet cache key = some old)
    (hupd : c.serviceUpdate old o = false) (hrep : c.serviceReplace old o = true)
    (holdq : c.asQueer old = some oldq)
    (hdel : encodeQuery c.argsOk eventDelete styp oldq = none) :
    handleAdd c styp cache key value = .ok ((key, o) :: cacheRemove cache key, []) := by
  simp [handleAdd, hdec, hfil, hq, hold, hupd, hrep, holdq, hdel, cacheStore]

theorem handleAdd_replace_addFail {Obj Args : Type} {c : Collab Obj Args}
    (styp : String) (cache : Cache Obj) {key value : String} {o old : Obj}
    {q oldq : QueerData Args} {del : Query Args}
    (hdec : c.stringToObjPtr value key = some o)
    (hfil : c.serviceFilter o = true) (hq : c.asQueer o = some q)
    (hold : cacheGet cache key = some old)
    (hupd : c.serviceUpdate old o = false) (hrep : c.serviceReplace old o = true)
    (holdq : c.asQueer old = some oldq)
    (hdel : encodeQuery c.argsOk eventDelete styp oldq = some del)
    (hadd : encodeQuery c.argsOk eventAdd styp q = none) :
    handleAdd c styp cache key value = .ok ((key, o) :: cacheRemove cache key, []) := by
  simp [handleAdd, hdec, hfil, hq, hold, hupd, hrep, holdq, hdel, hadd, cacheStore]

theorem handleAdd_noChange {Obj Args : Type} {c : Collab Obj Args}
    (styp : String) (cache : Cache Obj) {key value : String} {o old : Obj}
    {q : QueerData Args}
    (hdec : c.stringToObjPtr value key = some o)
    (hfil : c.serviceFilter o = true) (hq : c.asQueer o = some q)
    (hold : cacheGet cache key = some old)
    (hupd : c.serviceUpdate old o = false) (hrep : c.serviceReplace old o = false) :
    handleAdd c styp cache key value = .ok ((key, o) :: cacheRemove cache key, []) := by
  simp [handleAdd, hdec, hfil, hq, hold, hupd, hrep, cacheStore]

theorem handleDelete_absent {Obj Args : Type} {c : Collab Obj Args}
    (styp : String) (cache : Cache Obj) {key : String}
    (hold : cacheGet cache key = none) :
    handleDelete c styp cache key = .ok (cache, []) := by
  simp [handleDelete, cacheDelete, hold]

theorem handleDelete_present_encOk {Obj Args : Type} {c : Collab Obj Args}
    (styp : String) (cache : Cache Obj) {key : String} {old : Obj}
    {oldq : QueerData Args} {qu : Query Args}
    (hold : cacheGet cache key = some old) (holdq : c.asQueer old = some oldq)
    (henc : encodeQuery c.argsOk eventDelete styp oldq = some qu) :
    handleDelete c styp cache key
      = .ok (cacheRemove cache key, [.query oldq.dtype qu]) := by
  simp [handleDelete, cacheDelete, hold, holdq, henc]

theorem handleDelete_present_encFail {Obj Args : Type} {c : Collab Obj Args}
    (styp : String) (cache : Cache Obj) {key : String} {old : Obj}
    {oldq : QueerData Args}
    (hold : cacheGet cache key = some old) (holdq : c.asQueer old = some oldq)
    (henc : encodeQuery c.argsOk eventDelete styp oldq = none) :
    handleDelete c styp cache key = .ok (cacheRemove cache key, []) := by
  simp [handleDelete, cacheDelete, hold, holdq, henc]

@[simp] theorem cacheGet_cons_self {Obj : Type} (k : String) (o : Obj)
    (rest : Cache Obj) : cacheGet ((k, o) :: rest) k = some o := by
  simp [cacheGet]

/-- Claim C1: classification of an add-kind record whose raw value decodes to
a service-bearing object: no previous object → exactly one add-Query for the
new object; a previous object and the service-update predicate → exactly one
Update message; a previous object and the service-replace predicate → a
delete for the old and an add for the new; a previous object and neither
predicate → nothing dispatched.  The two diff predicates are mutually
exclusive by their specification (arguments changed with target unchanged,
versus target changed), which `hexcl` records. -/
theorem C1_classification {Obj Args : Type} (c : Collab Obj Args)
    (hexcl : ∀ a b : Obj, c.serviceUpdate a b = true → c.serviceReplace a b = false)
    (styp k v : String) (cache : Cache Obj) (o : Obj) (q : QueerData Args)
    (hdec : c.stringToObjPtr v k = some o)
    (hfil : c.serviceFilter o = true)
    (hq : c.asQueer o = some q) :
    (cacheGet cache k = none →
      ∀ qu, encodeQuery c.argsOk eventAdd styp q = some qu →
        handleValue c styp cache [eventAdd, k, v]
          = .ok ((k, o) :: cacheRemove cache k, [.query q.dtype qu]))
    ∧ (∀ old oldq, cacheGet cache k = some old → c.asQueer old = some oldq →
        (c.serviceUpdate old o = true →
          ∀ u, encodeUpdate c.argsOk oldq q = some u →
            handleValue c styp cache [eventAdd, k, v]
              = .ok ((k, o) :: cacheRemove cache k, [.update q.dtype u]))
        ∧ (c.serviceReplace old o = true →
            ∀ dq aq, encodeQuery c.argsOk eventDelete styp oldq = some dq →
              encodeQuery c.argsOk eventAdd styp q = some aq →
              handleValue c styp cache [eventAdd, k, v]
                = .ok ((k, o) :: cacheRemove cache k,
                    [.query oldq.dtype dq, .query q.dtype aq]))
        ∧ (c.serviceUpdate old o = false → c.serviceReplace old o = false →
            handleValue c styp cache [eventAdd, k, v]
              = .ok ((k, o) :: cacheRemove cache k, []))) := by
  refine ⟨?_, ?_⟩
  · intro hold qu henc
    rw [handleValue_cons_add c styp cache k v [] rfl]
    exact handleAdd_new_encOk styp cache hdec hfil hq hold henc
  · intro old oldq hold holdq
    refine ⟨?_, ?_, ?_⟩
    · intro hupd u henc
      rw [handleValue_cons_add c styp cache k v [] rfl]
      exact handleAdd_update_encOk styp cache hdec hfil hq hold hupd holdq henc
    · intro hrep dq aq hdel hadd
      have hupd : c.serviceUpdate old o = false := by
        cases hu : c.serviceUpdate old o
        · rfl
        · rw [hexcl old o hu] at hrep
          exact absurd hrep (by simp)
      rw [handleValue_cons_add c styp cache k v [] rfl]
      exact handleAdd_replace_encOk styp cache hdec hfil hq hold hupd hrep holdq hdel hadd
    · intro hupd hrep
      rw [handleValue_cons_add c styp cache k v [] rfl]
      exact handleAdd_noChange styp cache hdec hfil hq hold hupd hrep

theorem C1_classification_witness :
    handleValue cEx "st" [] [eventAdd, "k", "12"]
      = .ok ([("k", 12)],
          [.query (queerEx 12).dtype
            ⟨eventAdd, EncodeEntityID "st" (queerEx 12).id, (queerEx 12).service, 12⟩]) :=
  (C1_classification cEx cEx_excl "st" "k" "12" [] 12 (queerEx 12)
    (by decide) (by decide) rfl).1 rfl _ rfl

/-- Claim C2: an add-kind record classified as Replace dispatches a
delete-Query built from the old object followed by an add-Query built from
the new object, in that order, the delete routed to the backend of the old
object's own discovery type and the add to that of the new object's own
discovery type. -/
theorem C2_replace_order_routing {Obj Args : Type} (c : Collab Obj Args)
    (hexcl : ∀ a b : Obj, c.serviceUpdate a b = true → c.serviceReplace a b = false)
    (styp k v : String) (cache : Cache Obj) (o old : Obj)
    (q oldq : QueerData Args) (dq aq : Query Args)
    (hdec : c.stringToObjPtr v k = some o)
    (hfil : c.serviceFilter o = true)
    (hq : c.asQueer o = some q)
    (hold : cacheGet cache k = some old)
    (holdq : c.asQueer old = some oldq)
    (hrep : c.serviceReplace old o = true)
    (hdel : encodeQuery c.argsOk eventDelete styp oldq = some dq)
    (hadd : encodeQuery c.argsOk eventAdd styp q = some aq) :
    handleValue c styp cache [eventAdd, k, v]
      = .ok ((k, o) :: cacheRemove cache k, [.query oldq.dtype dq, .query q.dtype aq])
    ∧ dq = ⟨eventDelete, EncodeEntityID styp oldq.id, oldq.service, oldq.args⟩
    ∧ aq = ⟨eventAdd, EncodeEntityID styp q.id, q.service, q.args⟩ := by
  have hupd : c.serviceUpdate old o = false := by
    cases hu : c.serviceUpdate old o
    · rfl
    · rw [hexcl old o hu] at hrep
      exact absurd hrep (by simp)
  refine ⟨?_, (encodeQuery_eq_some hdel).1, (encodeQuery_eq_some hadd).1⟩
  rw [handleValue_cons_add c styp cache k v [] rfl]
  exact handleAdd_replace_encOk styp cache hdec hfil hq hold hupd hrep holdq hdel hadd

theorem C2_replace_order_routing_witness :
    handleValue cEx "st" [("k", 12)] [eventAdd, "k", "25"]
      = .ok ([("k", 25)],
          [.query (queerEx 12).dtype
            ⟨eventDelete, EncodeEntityID "st" (queerEx 12).id, (queerEx 12).service, 12⟩,
           .query (queerEx 25).dtype
            ⟨eventAdd, EncodeEntityID "st" (queerEx 25).id, (queerEx 25).service, 25⟩]) :=
  (C2_replace_order_routing cEx cEx_excl "st" "k" "25" [("k", 12)] 25 12
    (queerEx 25) (queerEx 12) _ _ (by decide) (by decide) rfl rfl rfl
    (by decide) rfl rfl).1

/-- Claim C3 fails on the code: in a Replace classification with the old
object's delete query successfully encoded, a failure to encode the add
query for the new object abandons the already-encoded delete as well —
nothing at all is dispatched, contradicting the claim that only the single
operation whose encoding failed is abandoned.  Concretely: cached object 31
is replaced by object 250 (different service target), the delete for 31
encodes fine, the add for 250 fails (payload 250 is malformed), and the
dispatch list is empty. -/
theorem C3_counterexample :
    cEx.serviceUpdate 31 250 = false
    ∧ cEx.serviceReplace 31 250 = true
    ∧ encodeQuery cEx.argsOk eventDelete "st" (queerEx 31)
        = some ⟨eventDelete, EncodeEntityID "st" (queerEx 31).id, (queerEx 31).service, 31⟩
    ∧ encodeQuery cEx.argsOk eventAdd "st" (queerEx 250) = none
    ∧ handleValue cEx "st" [("k", 31)] [eventAdd, "k", "250"]
        = .ok ([("k", 250)], []) :=
  ⟨by decide, by decide, rfl, rfl, rfl⟩

/-- Claim C3, amended: when an encode step fails, `handleValue` abandons the
remainder of that one record's handling: for the New, Update and Delete
classifications this is exactly the single failed operation, but in a
Replace classification a failure to encode either of the two queries
abandons both of them (including a successfully encoded delete); the
snapshot cache update has already happened and other records are
unaffected. -/
theorem C3_encode_failure_scope {Obj Args : Type} (c : Collab Obj Args)
    (styp k v : String) (cache : Cache Obj) (o old : Obj)
    (q oldq : QueerData Args)
    (hdec : c.stringToObjPtr v k = some o)
    (hfil : c.serviceFilter o = true)
    (hq : c.asQueer o = some q)
    (hold : cacheGet cache k = some old)
    (holdq : c.asQueer old = some oldq)
    (hupd : c.serviceUpdate old o = false)
    (hrep : c.serviceReplace old o = true) :
    (encodeQuery c.argsOk eventDelete styp oldq = none →
      handleValue c styp cache [eventAdd, k, v]
        = .ok ((k, o) :: cacheRemove cache k, []))
    ∧ (∀ dq, encodeQuery c.argsOk eventDelete styp oldq = some dq →
        encodeQuery c.argsOk eventAdd styp q = none →
        handleValue c styp cache [eventAdd, k, v]
          = .ok ((k, o) :: cacheRemove cache k, [])) := by
  constructor
  · intro hdelFail
    rw [handleValue_cons_add c styp cache k v [] rfl]
    exact handleAdd_replace_delFail styp cache hdec hfil hq hold hupd hrep holdq hdelFail
  · intro dq hdel haddFail
    rw [handleValue_cons_add c styp cache k v [] rfl]
    exact handleAdd_replace_addFail styp cache hdec hfil hq hold hupd hrep holdq hdel haddFail

theorem C3_encode_failure_scope_witness :
    handleValue cEx "st" [("k", 31)] [eventAdd, "k", "250"]
      = .ok ([("k", 250)], []) :=
  (C3_encode_failure_scope cEx "st" "k" "250" [("k", 31)] 250 31
    (queerEx 250) (queerEx 31) (by decide) (by decide) rfl rfl rfl
    (by decide) (by decide)).2
    ⟨eventDelete, EncodeEntityID "st" (queerEx 31).id, (queerEx 31).service, 31⟩
    rfl rfl

theorem handleAdd_ne_indexFault {Obj Args : Type} (c : Collab Obj Args)
    (styp : String) (cache : Cache Obj) (key value : String) :
    handleAdd c styp cache key value ≠ .error .indexOutOfRange := by
  unfold handleAdd
  repeat' split
  all_goals intro h
  all_goals simp at h

theorem handleDelete_ne_indexFault {Obj Args : Type} (c : Collab Obj Args)
    (styp : String) (cache : Cache Obj) (key : String) :
    handleDelete c styp cache key ≠ .error .indexOutOfRange := by
  unfold handleDelete
  repeat' split
  all_goals intro h
  all_goals simp at h

theorem handleAdd_result {Obj Args : Type} (c : Collab Obj Args)
    (hwf : ∀ o, c.serviceFilter o = true → (c.asQueer o).isSome = true)
    (styp : String) (cache : Cache Obj)
    (hinv : ∀ p ∈ cache, c.serviceFilter p.2 = true) (key value : String) :
    ∃ cache' ds, handleAdd c styp cache key value = .ok (cache', ds)
      ∧ (cache' = cache
         ∨ ∃ o, c.serviceFilter o = true ∧ cache' = (key, o) :: cacheRemove cache key) := by
  cases hdec : c.stringToObjPtr value key with
  | none => exact ⟨cache, [], handleAdd_decodeFail styp cache hdec, .inl rfl⟩
  | some o =>
    cases hfil : c.serviceFilter o with
    | false => exact ⟨cache, [], handleAdd_filtered styp cache hdec hfil, .inl rfl⟩
    | true =>
      obtain ⟨q, hq⟩ := Option.isSome_iff_exists.mp (hwf o hfil)
      cases hold : cacheGet cache key with
      | none =>
        cases henc : encodeQuery c.argsOk eventAdd styp q with
        | none =>
          exact ⟨_, _, handleAdd_new_encFail styp cache hdec hfil hq hold henc,
            .inr ⟨o, hfil, rfl⟩⟩
        | some qu =>
          exact ⟨_, _, handleAdd_new_encOk styp cache hdec hfil hq hold henc,
            .inr ⟨o, hfil, rfl⟩⟩
      | some old =>
        have hfo : c.serviceFilter old = true := hinv (key, old) (cacheGet_mem hold)
        obtain ⟨oldq, holdq⟩ := Option.isSome_iff_exists.mp (hwf old hfo)
        cases hupd : c.serviceUpdate old o with
        | true =>
          cases henc : encodeUpdate c.argsOk oldq q with
          | none =>
            exact ⟨_, _,
              handleAdd_update_encFail styp cache hdec hfil hq hold hupd holdq henc,
              .inr ⟨o, hfil, rfl⟩⟩
          | some u =>
            exact ⟨_, _,
              handleAdd_update_encOk styp cache hdec hfil hq hold hupd holdq henc,
              .inr ⟨o, hfil, rfl⟩⟩
        | false =>
          cases hrep : c.serviceReplace old o with
          | false =>
            exact ⟨_, _, handleAdd_noChange styp cache hdec hfil hq hold hupd hrep,
              .inr ⟨o, hfil, rfl⟩⟩
          | true =>
            cases hdel : encodeQuery c.argsOk eventDelete styp oldq with
            | none =>
              exact ⟨_, _,
                handleAdd_replace_delFail styp cache hdec hfil hq hold hupd hrep holdq hdel,
                .inr ⟨o, hfil, rfl⟩⟩
            | some del =>
              cases hadd : encodeQuery c.argsOk eventAdd styp q with
              | none =>
                exact ⟨_, _,
                  handleAdd_replace_addFail styp cache hdec hfil hq hold hupd hrep holdq
                    hdel hadd,
                  .inr ⟨o, hfil, rfl⟩⟩
              | some add =>
                exact ⟨_, _,
                  handleAdd_replace_encOk styp cache hdec hfil hq hold hupd hrep holdq
                    hdel hadd,
                  .inr ⟨o, hfil, rfl⟩⟩

theorem handleDelete_result {Obj Args : Type} (c : Collab Obj Args)
    (hwf : ∀ o, c.serviceFilter o = true → (c.asQueer o).isSome = true)
    (styp : String) (cache : Cache Obj)
    (hinv : ∀ p ∈ cache, c.serviceFilter p.2 = true) (key : String) :
    ∃ cache' ds, handleDelete c styp cache key = .ok (cache', ds)
      ∧ (cache' = cache ∨ cache' = cacheRemove cache key) := by
  cases hold : cacheGet cache key with
  | none => exact ⟨cache, [], handleDelete_absent styp cache hold, .inl rfl⟩
  | some old =>
    have hfo : c.serviceFilter old = true := hinv (key, old) (cacheGet_mem hold)
    obtain ⟨oldq, holdq⟩ := Option.isSome_iff_exists.mp (hwf old hfo)
    cases henc : encodeQuery c.argsOk eventDelete styp oldq with
    | none => exact ⟨_, _, handleDelete_present_encFail styp cache hold holdq henc, .inr rfl⟩
    | some qu => exact ⟨_, _, handleDelete_present_encOk styp cache hold holdq henc, .inr rfl⟩

theorem handleValue_result {Obj Args : Type} (c : Collab Obj Args)
    (hwf : ∀ o, c.serviceFilter o = true → (c.asQueer o).isSome = true)
    (styp : String) (cache : Cache Obj)
    (hinv : ∀ p ∈ cache, c.serviceFilter p.2 = true) (val : List String) :
    handleValue c styp cache val = .error .indexOutOfRange
    ∨ ∃ cache' ds, handleValue c styp cache val = .ok (cache', ds)
        ∧ (cache' = cache
           ∨ (∃ k o, c.serviceFilter o = true ∧ cache' = (k, o) :: cacheRemove cache k)
           ∨ ∃ k, cache' = cacheRemove cache k) := by
  rcases val with _ | ⟨ev, _ | ⟨k, _ | ⟨v, rest⟩⟩⟩
  · exact .inl rfl
  · exact .inl rfl
  · exact .inl rfl
  · by_cases hev : ev = eventAdd
    · rw [handleValue_cons_add c styp cache k v rest hev]
      obtain ⟨cache', ds, heq, hforms⟩ := handleAdd_result c hwf styp cache hinv k v
      refine .inr ⟨cache', ds, heq, ?_⟩
      rcases hforms with h | ⟨o, hfo, rfl⟩
      · exact .inl h
      · exact .inr (.inl ⟨k, o, hfo, rfl⟩)
    · by_cases hev2 : ev = eventDelete
      · rw [handleValue_cons_delete c styp cache k v rest hev2]
        obtain ⟨cache', ds, heq, hforms⟩ := handleDelete_result c hwf styp cache hinv k
        refine .inr ⟨cache', ds, heq, ?_⟩
        rcases hforms with h | h
        · exact .inl h
        · exact .inr (.inr ⟨k, h⟩)
      · rw [handleValue_cons_other c styp cache k v rest hev hev2]
        exact .inr ⟨cache, [], rfl, .inl rfl⟩

/-- Claim C9: every object the watcher inserts into the snapshot cache is
service-bearing, because `handleValue` checks the service-bearing predicate
before the atomic store; therefore, whenever all cached objects are
service-bearing (and the service-bearing predicate entails the Queer
capability, `hwf`), the Queer type assertion in `handleValue` cannot fail,
processing any record preserves the all-service-bearing cache invariant,
and a decoded object failing the predicate leaves the cache entirely
unchanged. -/
theorem C9_cache_service_bearing {Obj Args : Type} (c : Collab Obj Args)
    (hwf : ∀ o, c.serviceFilter o = true → (c.asQueer o).isSome = true)
    (styp : String) (cache : Cache Obj)
    (hinv : ∀ p ∈ cache, c.serviceFilter p.2 = true) (val : List String) :
    handleValue c styp cache val ≠ .error .typeAssertionFailed
    ∧ (∀ cache' ds, handleValue c styp cache val = .ok (cache', ds) →
        ∀ p ∈ cache', c.serviceFilter p.2 = true)
    ∧ (∀ k v o, val = [eventAdd, k, v] → c.stringToObjPtr v k = some o →
        c.serviceFilter o = false →
        handleValue c styp cache val = .ok (cache, [])) := by
  have hres := handleValue_result c hwf styp cache hinv val
  refine ⟨?_, ?_, ?_⟩
  · rcases hres with h | ⟨cache', ds, h, _⟩
    · rw [h]
      intro hcon
      simp at hcon
    · rw [h]
      intro hcon
      simp at hcon
  · intro cache' ds h
    rcases hres with hbad | ⟨c2, ds2, heq, hforms⟩
    · rw [h] at hbad
      simp at hbad
    · rw [h] at heq
      have hpair : (cache', ds) = (c2, ds2) := Except.ok.inj heq
      obtain rfl : cache' = c2 := congrArg Prod.fst hpair
      rcases hforms with rfl | ⟨k, o, hfo, rfl⟩ | ⟨k, rfl⟩
      · exact hinv
      · intro p hp
        rcases List.mem_cons.mp hp with rfl | hp'
        · exact hfo
        · exact hinv p (mem_cacheRemove hp')
      · exact fun p hp => hinv p (mem_cacheRemove hp)
  · intro k v o hval hdec hfil
    subst hval
    rw [handleValue_cons_add c styp cache k v [] rfl]
    exact handleAdd_filtered styp cache hdec hfil

theorem C9_cache_service_bearing_witness :
    handleValue cEx "st" [("k", 31)] [eventAdd, "k", "250"] ≠ .error .typeAssertionFailed
    ∧ handleValue cEx "st" [("k", 31)] [eventAdd, "k", "0"] = .ok ([("k", 31)], []) :=
  ⟨(C9_cache_service_bearing cEx cEx_wf "st" [("k", 31)] (by decide)
      [eventAdd, "k", "250"]).1,
   (C9_cache_service_bearing cEx cEx_wf "st" [("k", 31)] (by decide)
      [eventAdd, "k", "0"]).2.2 "k" "0" 0 rfl rfl rfl⟩

/-- Claim C4: a delete-kind record whose key has no entry in the snapshot
cache dispatches nothing and leaves the cache unchanged, no matter how
often the same record is repeated. -/
theorem C4_idempotent_delete {Obj Args : Type} (c : Collab Obj Args)
    (styp k v : String) (cache : Cache Obj)
    (h : cacheGet cache k = none) (n : Nat) :
    runRecords c styp cache (List.replicate n [eventDelete, k, v]) = .ok (cache, []) := by
  induction n with
  | zero => simp [runRecords]
  | succ m ih =>
    have hstep : handleValue c styp cache [eventDelete, k, v] = .ok (cache, []) := by
      rw [handleValue_cons_delete c styp cache k v [] rfl]
      exact handleDelete_absent styp cache h
    simp [List.replicate_succ, runRecords, hstep, ih]

theorem C4_idempotent_delete_witness :
    runRecords cEx "st" [("j", 5)] (List.replicate 3 [eventDelete, "k", ""])
      = .ok ([("j", 5)], []) :=
  C4_idempotent_delete cEx "st" "k" "" [("j", 5)] (by decide) 3

/-- Claim C10: `handleValue` unconditionally indexes the decoded triple at
positions 0, 1 and 2, so every input slice shorter than 3 aborts with an
index error, and under the precondition that the length is at least 3 no
index error is reachable. -/
theorem C10_indexing {Obj Args : Type} (c : Collab Obj Args) (styp : String)
    (cache : Cache Obj) (val : List String) :
    (val.length < 3 → handleValue c styp cache val = .error .indexOutOfRange)
    ∧ (3 ≤ val.length → handleValue c styp cache val ≠ .error .indexOutOfRange) := by
  constructor
  · intro hlen
    rcases val with _ | ⟨ev, _ | ⟨k, _ | ⟨v, rest⟩⟩⟩
    · rfl
    · rfl
    · rfl
    · simp [List.length_cons] at hlen
      omega
  · intro hlen
    rcases val with _ | ⟨ev, _ | ⟨k, _ | ⟨v, rest⟩⟩⟩
    · simp at hlen
    · simp at hlen
    · simp at hlen
    · show (if ev = eventAdd then handleAdd c styp cache k v
        else if ev = eventDelete then handleDelete c styp cache k
        else .ok (cache, [])) ≠ _
      split
      · exact handleAdd_ne_indexFault c styp cache k v
      · split
        · exact handleDelete_ne_indexFault c styp cache k
        · simp

theorem C10_indexing_witness :
    handleValue cEx "st" [] [eventAdd, "k"] = .error .indexOutOfRange
    ∧ handleValue cEx "st" [] [eventAdd, "k", "12"] ≠ .error .indexOutOfRange :=
  ⟨(C10_indexing cEx "st" [] [eventAdd, "k"]).1 (by decide),
   (C10_indexing cEx "st" [] [eventAdd, "k", "12"]).2 (by decide)⟩

theorem handleValue_add_ok {Obj Args : Type} (c : Collab Obj Args)
    (styp k v : String) (cache : Cache Obj) (o : Obj) (q : QueerData Args)
    (hdec : c.stringToObjPtr v k = some o) (hfil : c.serviceFilter o = true)
    (hq : c.asQueer o = some q)
    (hold : ∀ o', cacheGet cache k = some o' → (c.asQueer o').isSome = true) :
    ∃ ds, handleValue c styp cache [eventAdd, k, v]
      = .ok ((k, o) :: cacheRemove cache k, ds) := by
  rw [handleValue_cons_add c styp cache k v [] rfl]
  cases hc : cacheGet cache k with
  | none =>
    cases henc : encodeQuery c.argsOk eventAdd styp q with
    | none => exact ⟨_, handleAdd_new_encFail styp cache hdec hfil hq hc henc⟩
    | some qu => exact ⟨_, handleAdd_new_encOk styp cache hdec hfil hq hc henc⟩
  | some old =>
    obtain ⟨oldq, holdq⟩ := Option.isSome_iff_exists.mp (hold old hc)
    cases hupd : c.serviceUpdate old o with
    | true =>
      cases henc : encodeUpdate c.argsOk oldq q with
      | none =>
        exact ⟨_, handleAdd_update_encFail styp cache hdec hfil hq hc hupd holdq henc⟩
      | some u =>
        exact ⟨_, handleAdd_update_encOk styp cache hdec hfil hq hc hupd holdq henc⟩
    | false =>
      cases hrep : c.serviceReplace old o with
      | false => exact ⟨_, handleAdd_noChange styp cache hdec hfil hq hc hupd hrep⟩
      | true =>
        cases hdel : encodeQuery c.argsOk eventDelete styp oldq with
        | none =>
          exact ⟨_,
            handleAdd_replace_delFail styp cache hdec hfil hq hc hupd hrep holdq hdel⟩
        | some del =>
          cases hadd : encodeQuery c.argsOk eventAdd styp q with
          | none =>
            exact ⟨_, handleAdd_replace_addFail styp cache hdec hfil hq hc hupd hrep
              holdq hdel hadd⟩
          | some add =>
            exact ⟨_, handleAdd_replace_encOk styp cache hdec hfil hq hc hupd hrep
              holdq hdel hadd⟩

theorem getDLast_cons {α : Type} : ∀ (l : List α) (a x : α),
    ((a :: l).getLast?).getD x = (l.getLast?).getD a
  | [], _, _ => rfl
  | b :: l', a, x => by
    rw [List.getLast?_cons_cons]
    rw [getDLast_cons l' b x, getDLast_cons l' b a]

theorem runAdds_cons {Obj Args : Type} (c : Collab Obj Args) (styp k v : String)
    {cache cache1 cacheF : Cache Obj} {ds : List (Dispatch Args)}
    {vs : List String} {prevs : List (Option Obj)}
    (h1 : handleValue c styp cache [eventAdd, k, v] = .ok (cache1, ds))
    (h2 : runAdds c styp k cache1 vs = .ok (cacheF, prevs)) :
    runAdds c styp k cache (v :: vs) = .ok (cacheF, cacheGet cache k :: prevs) := by
  simp only [runAdds, h1, h2]

theorem runAdds_spec {Obj Args : Type} (c : Collab Obj Args)
    (hwf : ∀ o, c.serviceFilter o = true → (c.asQueer o).isSome = true)
    (styp k : String) {vs : List String} {os : List Obj}
    (hvo : List.Forall₂
      (fun v o => c.stringToObjPtr v k = some o ∧ c.serviceFilter o = true) vs os) :
    ∀ cache : Cache Obj,
      (∀ o', cacheGet cache k = some o' → c.serviceFilter o' = true) →
      ∃ cacheF, runAdds c styp k cache vs
          = .ok (cacheF, (cacheGet cache k :: os.map some).dropLast)
        ∧ cacheGet cacheF k = ((os.map some).getLast?).getD (cacheGet cache k) := by
  induction hvo with
  | nil =>
    intro cache hprev
    refine ⟨cache, by simp [runAdds], by simp⟩
  | cons hpair hrest ih =>
    rename_i v o vs' os'
    intro cache hprev
    obtain ⟨hdec, hfil⟩ := hpair
    obtain ⟨q, hq⟩ := Option.isSome_iff_exists.mp (hwf o hfil)
    obtain ⟨ds, hstep⟩ := handleValue_add_ok c styp k v cache o q hdec hfil hq
      (fun o' h => hwf o' (hprev o' h))
    have hget1 : cacheGet ((k, o) :: cacheRemove cache k) k = some o :=
      cacheGet_cons_self k o (cacheRemove cache k)
    have hprev1 : ∀ o', cacheGet ((k, o) :: cacheRemove cache k) k = some o' →
        c.serviceFilter o' = true := by
      intro o' h
      rw [hget1] at h
      obtain rfl := Option.some.inj h
      exact hfil
    obtain ⟨cacheF, hrun, hlast⟩ := ih ((k, o) :: cacheRemove cache k) hprev1
    refine ⟨cacheF, ?_, ?_⟩
    · rw [runAdds_cons c styp k v hstep hrun, hget1, List.map_cons,
        List.dropLast_cons₂]
    · rw [hlast, hget1, List.map_cons, getDLast_cons]

/-- Claim C5: after N sequential add-kind records for one key, all decoding
to service-bearing objects, the snapshot cache holds exactly the Nth
decoded object, and the sequence of previous objects returned by the atomic
store at each step is exactly the sequence of previously decoded objects
for that key (none for the first). -/
theorem C5_snapshot_monotonicity {Obj Args : Type} (c : Collab Obj Args)
    (hwf : ∀ o, c.serviceFilter o = true → (c.asQueer o).isSome = true)
    (styp k : String) (vs : List String) (os : List Obj)
    (hvo : List.Forall₂
      (fun v o => c.stringToObjPtr v k = some o ∧ c.serviceFilter o = true) vs os)
    (cache : Cache Obj) (h0 : cacheGet cache k = none) :
    ∃ cacheF, runAdds c styp k cache vs
        = .ok (cacheF, (none :: os.map some).dropLast)
      ∧ cacheGet cacheF k = os.getLast? := by
  obtain ⟨cacheF, hrun, hlast⟩ := runAdds_spec c hwf styp k hvo cache
    (fun o' h => by rw [h0] at h; exact Option.noConfusion h)
  rw [h0] at hrun hlast
  refine ⟨cacheF, hrun, ?_⟩
  rw [hlast, List.getLast?_map]
  cases os.getLast? <;> rfl

theorem C5_snapshot_monotonicity_witness :
    ∃ cacheF, runAdds cEx "st" "k" [] ["12", "15", "25"]
        = .ok (cacheF, [none, some 12, some 15])
      ∧ cacheGet cacheF "k" = some 25 :=
  C5_snapshot_monotonicity cEx cEx_wf "st" "k" ["12", "15", "25"] [12, 15, 25]
    (.cons ⟨rfl, by decide⟩ (.cons ⟨rfl, by decide⟩ (.cons ⟨rfl, by decide⟩ .nil)))
    [] rfl

theorem handleQuery_assertFail {Obj Args : Type} {c : Collab Obj Args}
    (typ : String) {o : Obj} (hq : c.asQueer o = none) :
    handleQuery c typ o = .error .typeAssertionFailed := by
  simp [handleQuery, hq]

theorem handleQuery_encFail {Obj Args : Type} {c : Collab Obj Args}
    (typ : String) {o : Obj} {q : QueerData Args} (hq : c.asQueer o = some q)
    (henc : encodeQuery c.argsOk eventAdd typ q = none) :
    handleQuery c typ o = .ok [] := by
  simp [handleQuery, hq, henc]

theorem handleQuery_encOk {Obj Args : Type} {c : Collab Obj Args}
    (typ : String) {o : Obj} {q : QueerData Args} {qu : Query Args}
    (hq : c.asQueer o = some q)
    (henc : encodeQuery c.argsOk eventAdd typ q = some qu) :
    handleQuery c typ o = .ok [.query q.dtype qu] := by
  simp [handleQuery, hq, henc]

theorem handleQuery_ok_shape {Obj Args : Type} {c : Collab Obj Args} {typ : String}
    {o : Obj} {ds : List (Dispatch Args)} (h : handleQuery c typ o = .ok ds) :
    ∀ d ∈ ds, ∃ t qu, d = .query t qu ∧ qu.event = eventAdd := by
  cases hq : c.asQueer o with
  | none =>
    rw [handleQuery_assertFail typ hq] at h
    simp at h
  | some q =>
    cases henc : encodeQuery c.argsOk eventAdd typ q with
    | none =>
      rw [handleQuery_encFail typ hq henc] at h
      obtain rfl : ds = [] := (Except.ok.inj h).symm
      simp
    | some qu =>
      rw [handleQuery_encOk typ hq henc] at h
      obtain rfl : ds = [.query q.dtype qu] := (Except.ok.inj h).symm
      intro d hd
      rw [List.mem_singleton] at hd
      subst hd
      exact ⟨q.dtype, qu, rfl, by rw [(encodeQuery_eq_some henc).1]⟩

theorem initStore_ok_shape {Obj Args : Type} {c : Collab Obj Args} {typ : String} :
    ∀ {objs : List Obj} {ds : List (Dispatch Args)},
      initStore c typ objs = .ok ds →
      ∀ d ∈ ds, ∃ t qu, d = .query t qu ∧ qu.event = eventAdd := by
  intro objs
  induction objs with
  | nil =>
    intro ds h
    simp only [initStore] at h
    obtain rfl : ds = [] := (Except.ok.inj h).symm
    simp
  | cons o os ih =>
    intro ds h
    cases hhq : handleQuery c typ o with
    | error e =>
      simp only [initStore, hhq] at h
      exact Except.noConfusion h
    | ok d1 =>
      cases hrest : initStore c typ os with
      | error e =>
        simp only [initStore, hhq, hrest] at h
        exact Except.noConfusion h
      | ok ds2 =>
        simp only [initStore, hhq, hrest] at h
        obtain rfl : ds = d1 ++ ds2 := (Except.ok.inj h).symm
        intro d hd
        rcases List.mem_append.mp hd with hd1 | hd2
        · exact handleQuery_ok_shape hhq d hd1
        · exact ih hrest d hd2

/-- Claim C6: `Init` never writes to the snapshot cache — the stores come
out of reconciliation exactly as they went in, for every store and key —
and every operation the reconciliation path dispatches is an add-Query. -/
theorem C6_init_frame {Obj Args : Type} (c : Collab Obj Args) :
    ∀ (stores stores' : List (StoreSt Obj)) (ds : List (Dispatch Args)),
      InitW c stores = .ok (stores', ds) →
      stores' = stores
      ∧ ∀ d ∈ ds, ∃ t qu, d = .query t qu ∧ qu.event = eventAdd := by
  intro stores
  induction stores with
  | nil =>
    intro stores' ds h
    simp only [InitW] at h
    have hpair := Except.ok.inj h
    obtain rfl : stores' = [] := (congrArg Prod.fst hpair).symm
    obtain rfl : ds = [] := (congrArg Prod.snd hpair).symm
    simp
  | cons s rest ih =>
    intro stores' ds h
    cases hl : s.listResult with
    | error e =>
      simp only [InitW, hl] at h
      exact Except.noConfusion h
    | ok objs =>
      cases hi : initStore c s.typ objs with
      | error e =>
        simp only [InitW, hl, hi] at h
        exact Except.noConfusion h
      | ok ds1 =>
        cases hr : InitW c rest with
        | error e =>
          simp only [InitW, hl, hi, hr] at h
          exact Except.noConfusion h
        | ok pr =>
          obtain ⟨rest', ds2⟩ := pr
          simp only [InitW, hl, hi, hr] at h
          have hpair := Except.ok.inj h
          obtain rfl : stores' = s :: rest' := (congrArg Prod.fst hpair).symm
          obtain rfl : ds = ds1 ++ ds2 := (congrArg Prod.snd hpair).symm
          obtain ⟨hrest_eq, hrest_shape⟩ := ih rest' ds2 hr
          refine ⟨by rw [hrest_eq], ?_⟩
          intro d hd
          rcases List.mem_append.mp hd with hd1 | hd2
          · exact initStore_ok_shape hi d hd1
          · exact hrest_shape d hd2

theorem C6_init_frame_witness :
    ∃ ds, InitW cEx [⟨"st", .ok [12, 250], [("x", 7)]⟩]
        = .ok ([⟨"st", .ok [12, 250], [("x", 7)]⟩], ds)
      ∧ ∀ d ∈ ds, ∃ t qu, d = .query t qu ∧ qu.event = eventAdd := by
  refine ⟨_, rfl, ?_⟩
  exact (C6_init_frame cEx [⟨"st", .ok [12, 250], [("x", 7)]⟩] _ _ rfl).2

theorem initStore_filterMap {Obj Args : Type} (c : Collab Obj Args) (typ : String) :
    ∀ objs : List Obj, (∀ o ∈ objs, (c.asQueer o).isSome = true) →
      initStore c typ objs = .ok (objs.filterMap (reconcileOne c typ)) := by
  intro objs
  induction objs with
  | nil =>
    intro _
    simp [initStore]
  | cons o os ih =>
    intro hall
    obtain ⟨q, hq⟩ := Option.isSome_iff_exists.mp (hall o (List.mem_cons_self o os))
    have hrest := ih (fun o' ho' => hall o' (List.mem_cons_of_mem o ho'))
    cases henc : encodeQuery c.argsOk eventAdd typ q with
    | none =>
      have hro : reconcileOne c typ o = none := by simp [reconcileOne, hq, henc]
      simp only [initStore, handleQuery_encFail typ hq henc, hrest,
        List.filterMap_cons, hro, List.nil_append]
    | some qu =>
      have hro : reconcileOne c typ o = some (.query q.dtype qu) := by
        simp [reconcileOne, hq, henc]
      simp only [initStore, handleQuery_encOk typ hq henc, hrest,
        List.filterMap_cons, hro, List.singleton_append]

/-- Claim C7: a listing failure from any configured store makes `Init` abort
startup with the unrecoverable listing fault (no further reconciliation
happens), whereas a per-entity encode failure during reconciliation merely
skips that entity: the store's batch still succeeds, producing exactly the
dispatches of the entities whose encodes succeed. -/
theorem C7_init_errors {Obj Args : Type} (c : Collab Obj Args) :
    (∀ (pre post : List (StoreSt Obj)) (s : StoreSt Obj) (e : String),
      s.listResult = .error e →
      (∀ s' ∈ pre, ∃ objs ds, s'.listResult = .ok objs
        ∧ initStore c s'.typ objs = .ok ds) →
      InitW c (pre ++ s :: post) = .error .storerListFailed)
    ∧ (∀ (typ : String) (objs : List Obj),
        (∀ o ∈ objs, (c.asQueer o).isSome = true) →
        initStore c typ objs = .ok (objs.filterMap (reconcileOne c typ))) := by
  constructor
  · intro pre
    induction pre with
    | nil =>
      intro post s e hs _
      simp [InitW, hs]
    | cons s' pre' ih =>
      intro post s e hs hpre
      obtain ⟨objs, ds, h1, h2⟩ := hpre s' (List.mem_cons_self s' pre')
      have hrest := ih post s e hs (fun x hx => hpre x (List.mem_cons_of_mem s' hx))
      simp [InitW, h1, h2, hrest]
  · exact fun typ objs => initStore_filterMap c typ objs

theorem C7_init_errors_witness :
    InitW cEx [⟨"a", .ok [12], []⟩, ⟨"b", .error "boom", []⟩, ⟨"c", .ok [15], []⟩]
      = .error .storerListFailed
    ∧ initStore cEx "st" [12, 250, 15]
      = .ok ([12, 250, 15].filterMap (reconcileOne cEx "st")) := by
  constructor
  · refine (C7_init_errors cEx).1 [⟨"a", .ok [12], []⟩] [⟨"c", .ok [15], []⟩]
      ⟨"b", .error "boom", []⟩ "boom" rfl ?_
    intro s' hs'
    rw [List.mem_singleton] at hs'
    subst hs'
    exact ⟨[12], _, rfl, rfl⟩
  · exact (C7_init_errors cEx).2 "st" [12, 250, 15] (by decide)

/-- Claim C8: the number of permits concurrently held out of the permit pool
(one per executing dispatch task: each task acquires before it is spawned
and releases when it finishes) never exceeds the pool capacity, which is
GOMAXPROCS plus the fixed headroom 10 — every state reachable by any
sequence of channel sends and receives from the empty pool is bounded by
`semCapacity`. -/
theorem C8_bounded_concurrency (g : Nat) (evs : List SemEvent) (n : Nat)
    (h : semRun (semCapacity g) 0 evs = some n) : n ≤ g + 10 := by
  have gen : ∀ (evs : List SemEvent) (m n : Nat), m ≤ semCapacity g →
      semRun (semCapacity g) m evs = some n → n ≤ semCapacity g := by
    intro evs
    induction evs with
    | nil =>
      intro m n hm hr
      obtain rfl : m = n := Option.some.inj hr
      exact hm
    | cons e es ih =>
      intro m n hm hr
      cases e with
      | acquire =>
        by_cases hlt : m < semCapacity g
        · have hr' : semRun (semCapacity g) (m + 1) es = some n := by
            simpa [semRun, semStep, hlt] using hr
          exact ih (m + 1) n hlt hr'
        · simp [semRun, semStep, hlt] at hr
      | release =>
        by_cases hpos : 0 < m
        · have hr' : semRun (semCapacity g) (m - 1) es = some n := by
            simpa [semRun, semStep, hpos] using hr
          exact ih (m - 1) n (le_trans (Nat.sub_le m 1) hm) hr'
        · simp [semRun, semStep, hpos] at hr
  exact gen evs 0 n (Nat.zero_le _) h

theorem C8_bounded_concurrency_witness :
    semRun (semCapacity 2) 0 [.acquire, .acquire, .release, .acquire] = some 2
    ∧ 2 ≤ 2 + 10 :=
  ⟨by decide,
   C8_bounded_concurrency 2 [.acquire, .acquire, .release, .acquire] 2 (by decide)⟩

end Seed
